import Mathlib

/-!
A shallow embedding of the annotated-tag wrapper layer (`src/tag.rs` of a
git binding library) together with a model of the native tag subsystem it
wraps. Byte strings are lists of naturals, raw pointers are naturals
(0 is the null pointer), and the native object store is an association
list from object identifiers to object data.
-/

namespace GitTag

/-- Byte strings (each entry is one byte, `< 256` in practice). -/
abbrev Bytes := List Nat

/-- Raw pointer values; `0` models the null pointer. -/
abbrev Ptr := Nat

/-- Fixed-size content hash identifying a store object (`Oid`).
Two identifiers are equal iff their raw bytes are equal. -/
structure Oid where
  bytes : Bytes
deriving DecidableEq

/-- Native signature record embedded in a tag (name, email, timestamp). -/
structure git_signature where
  sigName : Bytes
  sigEmail : Bytes
  whenTime : Int
  whenOffset : Int
deriving DecidableEq

/-- Content of a native annotated-tag object, as read through the native
getters: its own id, possibly-null name/message/tagger pointers (modelled
as `Option`), the embedded target identifier and the raw target type code. -/
structure git_tag where
  tagOid : Oid
  namePtr : Option Bytes
  messagePtr : Option Bytes
  taggerPtr : Option git_signature
  targetOid : Oid
  targetTypeCode : Int
deriving DecidableEq

/-- Data of one object in the native store: its raw type code, and, when it
is itself an annotated tag, the tag content (used by the peel traversal). -/
structure git_object_data where
  kind : Int
  tagData : Option git_tag
deriving DecidableEq

/-- The native object store: identifier-addressed objects. -/
abbrev Store := List (Oid × git_object_data)

/-- Identifier-based lookup in the native store. -/
def lookupStore (s : Store) (oid : Oid) : Option git_object_data :=
  match s with
  | [] => none
  | (k, v) :: rest => if k = oid then some v else lookupStore rest oid

/-- The native raw type code of annotated tags (`GIT_OBJ_TAG`). -/
def objTag : Int := 4

/-- Error classes mirrored from the native classification space. -/
inductive ErrorClass
  | notFound
  | invalidSpec
  | generic
deriving DecidableEq

/-- Structured error produced by the error translator: numeric status code
plus a class tag read from the native last-error state. -/
structure GitError where
  code : Int
  klass : ErrorClass
deriving DecidableEq

/-- An owning generic object handle: the object's identifier and raw kind. -/
structure Object where
  oid : Oid
  kind : Int
deriving DecidableEq

/-- `Object::id`: the identifier of a generic object handle. -/
def Object.id (o : Object) : Oid := o.oid

/-- The object handles held by a caller-visible `peel`/`target` result:
one for a success, none on the error path. -/
def objectsHeld : Except GitError Object → List Object
  | .ok o => [o]
  | .error _ => []

/-- True for UTF-8 continuation bytes (`0x80-0xBF`). -/
def utf8Cont (c : Nat) : Bool := decide (0x80 ≤ c ∧ c ≤ 0xBF)

/-- UTF-8 validity of a byte string, following the standard (RFC 3629)
byte-range table that `str::from_utf8` implements. -/
def utf8Valid : List Nat → Bool
  | [] => true
  | b :: rest =>
    if b ≤ 0x7F then utf8Valid rest
    else if 0xC2 ≤ b ∧ b ≤ 0xDF then
      match rest with
      | [] => false
      | c1 :: rest1 => utf8Cont c1 && utf8Valid rest1
    else if 0xE0 ≤ b ∧ b ≤ 0xEF then
      match rest with
      | c1 :: c2 :: rest2 =>
        (if b = 0xE0 then decide (0xA0 ≤ c1 ∧ c1 ≤ 0xBF)
         else if b = 0xED then decide (0x80 ≤ c1 ∧ c1 ≤ 0x9F)
         else utf8Cont c1) && utf8Cont c2 && utf8Valid rest2
      | _ => false
    else if 0xF0 ≤ b ∧ b ≤ 0xF4 then
      match rest with
      | c1 :: c2 :: c3 :: rest3 =>
        (if b = 0xF0 then decide (0x90 ≤ c1 ∧ c1 ≤ 0xBF)
         else if b = 0xF4 then decide (0x80 ≤ c1 ∧ c1 ≤ 0x8F)
         else utf8Cont c1) && utf8Cont c2 && utf8Cont c3 && utf8Valid rest3
      | _ => false
    else false

/-- `str::from_utf8(..).ok()`: zero-copy UTF-8 validation. A Rust `&str`
is the same byte string carrying a validity invariant, so the decoded text
is modelled by the bytes themselves when they validate. -/
def str_from_utf8 (bs : Bytes) : Option Bytes :=
  if utf8Valid bs then some bs else none

/-! ## Native getters on a tag object

Each getter reads a field embedded in the native tag resource; possibly
null pointers become `Option`. A valid tag handle is identified with the
`git_tag` content its raw pointer dereferences to. -/

/-- `raw::git_tag_id`: the embedded identifier of the tag itself. -/
def git_tag_id (g : git_tag) : Oid := g.tagOid

/-- `raw::git_tag_name`: possibly-null pointer to the name bytes. -/
def git_tag_name (g : git_tag) : Option Bytes := g.namePtr

/-- `raw::git_tag_message`: possibly-null pointer to the message bytes. -/
def git_tag_message (g : git_tag) : Option Bytes := g.messagePtr

/-- `raw::git_tag_tagger`: possibly-null pointer to the tagger record. -/
def git_tag_tagger (g : git_tag) : Option git_signature := g.taggerPtr

/-- `raw::git_tag_target_id`: the embedded identifier of the tagged
object; requires no store lookup. -/
def git_tag_target_id (g : git_tag) : Oid := g.targetOid

/-- `raw::git_tag_target_type`: raw type code of the tagged object. -/
def git_tag_target_type (g : git_tag) : Int := g.targetTypeCode

/-- Modelled from the spec: `::opt_bytes` (defined outside `src/tag.rs`) —
"every raw accessor returning a possibly-null pointer must be translated
to an explicit optional/absent value at the binding boundary"; with null
already modelled as `none`, the translation is the identity. -/
def opt_bytes (p : Option Bytes) : Option Bytes := p

/-- Modelled from the spec: `signature::from_raw_const` (defined outside
`src/tag.rs`) — wraps a non-null borrowed signature pointer into a
borrowed view scoped to the owner; the view exposes exactly the record
borrowed from the owning tag. -/
def signature_from_raw_const (s : git_signature) : git_signature := s

/-- Object-type enumerant exposed by the binding
(closed set; unrecognized raw codes map to absence). -/
inductive ObjectType
  | Any
  | Commit
  | Tree
  | Blob
  | Tag
deriving DecidableEq

/-- Modelled from the spec: `ObjectType::from_raw` (the enumerant-mapping
code lives outside `src/tag.rs`) — "native integer codes map onto it;
unrecognized codes map to absent rather than erroring". -/
def ObjectType.from_raw (i : Int) : Option ObjectType :=
  if i = -2 then some .Any
  else if i = 1 then some .Commit
  else if i = 2 then some .Tree
  else if i = 3 then some .Blob
  else if i = 4 then some .Tag
  else none

/-- Modelled from the spec: native `git_tag_target` — the store "supplies
raw object lookup by identifier ... returning either a valid non-null raw
handle or a native status code", and `target` "fails with a NotFound-class
error if the target is missing from the store". The looked-up object is
addressed by, and therefore carries, the tag's embedded target id. -/
def git_tag_target (s : Store) (g : git_tag) : Except GitError Object :=
  match lookupStore s (git_tag_target_id g) with
  | some od => .ok { oid := git_tag_target_id g, kind := od.kind }
  | none => .error { code := -3, klass := .notFound }

/-- Modelled from the spec: native `git_tag_peel` — "recursively
dereferences through zero or more chained tag objects until a non-tag
object is reached; fails if any link in the chain cannot be resolved".
The traversal is given explicit fuel so it is total in the embedding;
a real content-addressed store has no tag cycles, so sufficient fuel
always exists (see `ResolvesTo`). -/
def git_tag_peel (s : Store) : Nat → git_tag → Except GitError Object
  | 0, _ => .error { code := -1, klass := .generic }
  | fuel + 1, g =>
    match lookupStore s (git_tag_target_id g) with
    | none => .error { code := -3, klass := .notFound }
    | some od =>
      if od.kind = objTag then
        match od.tagData with
        | some g' => git_tag_peel s fuel g'
        | none => .error { code := -1, klass := .generic }
      else
        .ok { oid := git_tag_target_id g, kind := od.kind }

/-! ## The safe tag handle (`Tag<'repo>`) -/

/-- `Tag<'repo>`: owning wrapper around a raw native tag pointer. The
contravariant lifetime marker is a zero-sized phantom, so the handle's
entire state is the stored pointer. -/
structure Tag where
  raw : Ptr
deriving DecidableEq

/-- `Binding::from_raw` for `Tag`: stores the pointer (and the zero-sized
lifetime marker) and nothing else. -/
def Tag.from_raw (p : Ptr) : Tag := { raw := p }

/-! Accessor methods of `impl Tag`, translated from the source. Each is a
function of the `git_tag` content a valid handle dereferences to (plus the
current store for the methods that perform a lookup). -/

/-- `Tag::id`: `Binding::from_raw(raw::git_tag_id(&*self.raw))`. -/
def Tag.id (g : git_tag) : Oid := git_tag_id g

/-- `Tag::message_bytes`: `opt_bytes(self, raw::git_tag_message(..))`. -/
def Tag.message_bytes (g : git_tag) : Option Bytes :=
  opt_bytes (git_tag_message g)

/-- `Tag::message`: `self.message_bytes().and_then(|s| str::from_utf8(s).ok())`. -/
def Tag.message (g : git_tag) : Option Bytes :=
  (Tag.message_bytes g).bind (fun s => str_from_utf8 s)

/-- `Tag::name_bytes`: `opt_bytes(self, raw::git_tag_name(..)).unwrap()` —
the result of the unwrap, with `none` marking the panic path taken when
the native name pointer is null. -/
def Tag.name_bytes (g : git_tag) : Option Bytes :=
  opt_bytes (git_tag_name g)

/-- `Tag::name`: `str::from_utf8(self.name_bytes()).ok()` (propagating the
`name_bytes` panic path as `none`). -/
def Tag.name (g : git_tag) : Option Bytes :=
  (Tag.name_bytes g).bind (fun s => str_from_utf8 s)

/-- `Tag::tagger`: null-checks the native tagger pointer at the call site;
`None` on null, otherwise a borrowed signature view over `&self`. -/
def Tag.tagger (g : git_tag) : Option git_signature :=
  match git_tag_tagger g with
  | none => none
  | some p => some (signature_from_raw_const p)

/-- `Tag::target`: `try_call!(raw::git_tag_target(&mut ret, ..))` then
`Ok(Binding::from_raw(ret))` — a fresh store lookup on every call. -/
def Tag.target (s : Store) (g : git_tag) : Except GitError Object :=
  git_tag_target s g

/-- `Tag::target_id`: `Binding::from_raw(raw::git_tag_target_id(..))`. -/
def Tag.target_id (g : git_tag) : Oid := git_tag_target_id g

/-- `Tag::target_type`: `ObjectType::from_raw(raw::git_tag_target_type(..))`. -/
def Tag.target_type (g : git_tag) : Option ObjectType :=
  ObjectType.from_raw (git_tag_target_type g)

/-- `Tag::peel`: `try_call!(raw::git_tag_peel(&mut ret, ..))` then
`Ok(Binding::from_raw(ret))`. -/
def Tag.peel (s : Store) (fuel : Nat) (g : git_tag) : Except GitError Object :=
  git_tag_peel s fuel g

/-! ## Peel chains

Inductive descriptions of how the tag chain rooted at a tag behaves in a
given store: either it resolves to a non-tag object, or some link fails. -/

/-- The tag chain starting at `g` resolves, in exactly `n ≥ 1` lookup
steps, to the non-tag object `o`: every link is present in the store, and
intermediate links are well-formed tag objects. -/
inductive ResolvesTo (s : Store) : git_tag → Nat → Object → Prop
  | direct {g : git_tag} {od : git_object_data} :
      lookupStore s (git_tag_target_id g) = some od →
      od.kind ≠ objTag →
      ResolvesTo s g 1 { oid := git_tag_target_id g, kind := od.kind }
  | step {g : git_tag} {od : git_object_data} {g' : git_tag} {n : Nat} {o : Object} :
      lookupStore s (git_tag_target_id g) = some od →
      od.kind = objTag →
      od.tagData = some g' →
      ResolvesTo s g' n o →
      ResolvesTo s g (n + 1) o

/-- Some link of the tag chain starting at `g` cannot be resolved: after
zero or more well-formed tag links, the next target is missing from the
store (or present as a tag whose content is unreadable). -/
inductive ChainBroken (s : Store) : git_tag → Prop
  | missing {g : git_tag} :
      lookupStore s (git_tag_target_id g) = none →
      ChainBroken s g
  | corrupt {g : git_tag} {od : git_object_data} :
      lookupStore s (git_tag_target_id g) = some od →
      od.kind = objTag →
      od.tagData = none →
      ChainBroken s g
  | step {g : git_tag} {od : git_object_data} {g' : git_tag} :
      lookupStore s (git_tag_target_id g) = some od →
      od.kind = objTag →
      od.tagData = some g' →
      ChainBroken s g' →
      ChainBroken s g

/-! ## Handle lifecycle (`impl Drop for Tag`)

Modelled from the spec: the handle's state machine has exactly the two
states Live and Released; Rust's ownership discipline admits only accessor
uses while Live and a single destructor run, after which the handle is
unreachable. The destructor body itself is translated from the source:
`fn drop(&mut self) { raw::git_tag_free(self.raw) }`. -/

/-- The two lifecycle states of a tag handle. -/
inductive LifeState
  | live
  | released
deriving DecidableEq

/-- The native release calls performed by the destructor body:
`raw::git_tag_free(self.raw)`, exactly one call on the owned pointer. -/
def drop_free (t : Tag) : List Ptr := [t.raw]

/-- Operations the type system permits on a tag handle: a borrow-based
accessor use, or the destructor run at end of scope. -/
inductive TagLifeOp
  | access
  | drop
deriving DecidableEq

/-- One lifecycle transition: Live survives an accessor use with no
release; Live transitions to Released by running the destructor, releasing
the owned pointer; nothing is permitted on a Released handle. -/
def lifeStep (t : Tag) : LifeState → TagLifeOp → Option (LifeState × List Ptr)
  | .live, .access => some (.live, [])
  | .live, .drop => some (.released, drop_free t)
  | .released, _ => none

/-- Runs a sequence of permitted operations, accumulating the pointers
released along the way; `none` when some operation is not permitted. -/
def runLife (t : Tag) : LifeState → List TagLifeOp → Option (LifeState × List Ptr)
  | st, [] => some (st, [])
  | st, op :: ops =>
    match lifeStep t st op with
    | none => none
    | some (st', fs) =>
      match runLife t st' ops with
      | none => none
      | some (st'', fs') => some (st'', fs ++ fs')

/-! ## Native-call traces of the fallible methods

Modelled from the spec: the thread-local error slot is a single-slot,
last-write-wins channel written by every native call; `try_call!` makes
the native call and immediately runs the error translator on its status.
Each wrapper method's body is represented by the sequence of native-layer
events it performs on its thread. -/

/-- The fallible native functions this layer calls. -/
inductive NativeFn
  | tagPeel
  | tagTarget
deriving DecidableEq

/-- A native-layer event: a call into the native library (which overwrites
the thread-local error slot), or the error translator reading that slot on
behalf of the named call. -/
inductive NativeEvent
  | call (f : NativeFn) (fallible : Bool)
  | errCheck (f : NativeFn)
deriving DecidableEq

/-- The event sequence of one `try_call!(f(..))` expansion: the native
call, immediately followed by the error translation of its status. -/
def try_call (f : NativeFn) : List NativeEvent :=
  [NativeEvent.call f true, NativeEvent.errCheck f]

/-- The native-layer events performed by `Tag::peel`. -/
def peelEvents : List NativeEvent := try_call NativeFn.tagPeel

/-- The native-layer events performed by `Tag::target`. -/
def targetEvents : List NativeEvent := try_call NativeFn.tagTarget

/-- The content of the thread-local error slot (which native call last
wrote it) after a sequence of events, from a given initial content. -/
def slotAfter : List NativeEvent → Option NativeFn → Option NativeFn
  | [], s => s
  | NativeEvent.call f _ :: evs, _ => slotAfter evs (some f)
  | NativeEvent.errCheck _ :: evs, s => slotAfter evs s

/-- Every fallible native call in the trace is followed in the very next
position by the error translation attributed to it, so no other native
call intervenes. -/
def immediatelyTranslated (evs : List NativeEvent) : Prop :=
  ∀ i f, evs.get? i = some (NativeEvent.call f true) →
    evs.get? (i + 1) = some (NativeEvent.errCheck f)

/-- Whenever the error translator runs, the thread-local slot it reads was
written by exactly the native call it is translating, whatever the slot
held before the method ran. -/
def translatorReadsOwnError (evs : List NativeEvent) : Prop :=
  ∀ init i f, evs.get? i = some (NativeEvent.errCheck f) →
    slotAfter (evs.take i) init = some f

/-! ## Accessor-call sequences

Modelled from the spec: "All accessor operations are pure reads; none
mutate the underlying resource" — each accessor reads the current native
state (store and tag content) and leaves it unchanged. -/

/-- The eight accessors of a live tag handle. -/
inductive AccessorOp
  | aId
  | aMessage
  | aMessageBytes
  | aName
  | aNameBytes
  | aTagger
  | aTargetId
  | aTargetType
deriving DecidableEq

/-- The value an accessor returns. -/
inductive AccVal
  | vOid (o : Oid)
  | vOptBytes (b : Option Bytes)
  | vSig (s : Option git_signature)
  | vType (t : Option ObjectType)
deriving DecidableEq

/-- Runs one accessor against the current native state (store and the
dereferenced tag content), returning the possibly-updated state and the
accessor's value. -/
def runAccessor (st : Store × git_tag) (op : AccessorOp) :
    (Store × git_tag) × AccVal :=
  (st,
    match op with
    | .aId => .vOid (Tag.id st.2)
    | .aMessage => .vOptBytes (Tag.message st.2)
    | .aMessageBytes => .vOptBytes (Tag.message_bytes st.2)
    | .aName => .vOptBytes (Tag.name st.2)
    | .aNameBytes => .vOptBytes (Tag.name_bytes st.2)
    | .aTagger => .vSig (Tag.tagger st.2)
    | .aTargetId => .vOid (Tag.target_id st.2)
    | .aTargetType => .vType (Tag.target_type st.2))

/-- Runs a sequence of accessors left to right, threading the native state
and collecting the returned values. -/
def runAccessors (st : Store × git_tag) :
    List AccessorOp → (Store × git_tag) × List AccVal
  | [] => (st, [])
  | op :: ops =>
    ((runAccessors (runAccessor st op).1 ops).1,
      (runAccessor st op).2 :: (runAccessors (runAccessor st op).1 ops).2)

/-! ## Concrete fixtures (used by the witnesses) -/

/-- Identifier of the outer tag object. -/
def oidA : Oid := { bytes := [1] }

/-- Identifier of the inner tag object. -/
def oidB : Oid := { bytes := [2] }

/-- Identifier of the commit object at the end of the chain. -/
def oidC : Oid := { bytes := [3] }

/-- A concrete tagger signature. -/
def sigS : git_signature :=
  { sigName := [116], sigEmail := [101], whenTime := 0, whenOffset := 0 }

/-- A commit object (`kind = 1`, no tag content). -/
def commitData : git_object_data := { kind := 1, tagData := none }

/-- Inner tag: named, no message, no tagger, targeting the commit. -/
def tagB : git_tag :=
  { tagOid := oidB, namePtr := some [98], messagePtr := none,
    taggerPtr := none, targetOid := oidC, targetTypeCode := 1 }

/-- Outer tag: named, with message `msg` and a tagger, targeting the
inner tag. -/
def tagA : git_tag :=
  { tagOid := oidA, namePtr := some [97], messagePtr := some [109, 115, 103],
    taggerPtr := some sigS, targetOid := oidB, targetTypeCode := 4 }

/-- A store holding the inner tag and the commit. -/
def storeGood : Store :=
  [(oidB, { kind := objTag, tagData := some tagB }), (oidC, commitData)]

/-- An empty store: every target is missing. -/
def storeMissing : Store := []

/-- A concrete safe tag handle over pointer `1`. -/
def tagHandleW : Tag := Tag.from_raw 1

/-! ## Theorems -/

/-- A resolving chain ends at a non-tag object. -/
lemma ResolvesTo.kind_ne {s : Store} {g : git_tag} {n : Nat} {o : Object}
    (h : ResolvesTo s g n o) : o.kind ≠ objTag := by
  induction h with
  | direct _ hk => exact hk
  | step _ _ _ _ ih => exact ih

/-- With enough fuel, the native peel returns exactly the object a
resolving chain describes. -/
lemma git_tag_peel_of_resolves {s : Store} {g : git_tag} {n : Nat}
    {o : Object} (h : ResolvesTo s g n o) :
    ∀ fuel, n ≤ fuel → git_tag_peel s fuel g = .ok o := by
  induction h with
  | @direct g od hlook hk =>
    intro fuel hle
    match fuel, hle with
    | fuel + 1, _ =>
      simp [git_tag_peel, hlook, hk]
  | @step g od g' n o hlook hk htd _ ih =>
    intro fuel hle
    match fuel, hle with
    | fuel + 1, hle =>
      have hle' : n ≤ fuel := Nat.le_of_succ_le_succ hle
      simp [git_tag_peel, hlook, hk, htd, ih fuel hle']

/-- A broken chain makes the native peel fail, for every fuel budget. -/
lemma git_tag_peel_of_broken {s : Store} {g : git_tag}
    (h : ChainBroken s g) :
    ∀ fuel, ∃ e, git_tag_peel s fuel g = .error e := by
  induction h with
  | @missing g hlook =>
    intro fuel
    cases fuel with
    | zero => exact ⟨{ code := -1, klass := .generic }, rfl⟩
    | succ fuel =>
      exact ⟨{ code := -3, klass := .notFound }, by simp [git_tag_peel, hlook]⟩
  | @corrupt g od hlook hk htd =>
    intro fuel
    cases fuel with
    | zero => exact ⟨{ code := -1, klass := .generic }, rfl⟩
    | succ fuel =>
      exact ⟨{ code := -1, klass := .generic },
        by simp [git_tag_peel, hlook, hk, htd]⟩
  | @step g od g' hlook hk htd _ ih =>
    intro fuel
    cases fuel with
    | zero => exact ⟨{ code := -1, klass := .generic }, rfl⟩
    | succ fuel =>
      obtain ⟨e, he⟩ := ih fuel
      exact ⟨e, by simp [git_tag_peel, hlook, hk, htd, he]⟩

/-- C1: `peel()` dereferences through zero or more chained tag objects:
whenever every link of the chain resolves (in any number of steps covered
by the fuel budget), it returns `Ok` of the final object, which is never
of tag kind; whenever some link cannot be resolved it returns `Err`, and
the error result holds no partially resolved object handle. -/
theorem tag_peel_correct (s : Store) (g : git_tag) :
    (∀ n o fuel, ResolvesTo s g n o → n ≤ fuel →
      Tag.peel s fuel g = .ok o ∧ o.kind ≠ objTag) ∧
    (ChainBroken s g → ∀ fuel, ∃ e, Tag.peel s fuel g = .error e ∧
      objectsHeld (Tag.peel s fuel g) = []) := by
  constructor
  · intro n o fuel h hle
    exact ⟨git_tag_peel_of_resolves h fuel hle, h.kind_ne⟩
  · intro h fuel
    obtain ⟨e, he⟩ := git_tag_peel_of_broken h fuel
    exact ⟨e, he, by simp [Tag.peel] at he ⊢; simp [objectsHeld, he]⟩

/-- The two-link chain of the fixture store resolves to the commit. -/
lemma resolvesW : ResolvesTo storeGood tagA 2 { oid := oidC, kind := 1 } := by
  have hdir : ResolvesTo storeGood tagB 1 { oid := oidC, kind := 1 } := by
    have h := @ResolvesTo.direct storeGood tagB commitData
      (by decide) (by decide)
    exact h
  exact @ResolvesTo.step storeGood tagA
    { kind := objTag, tagData := some tagB } tagB 1 { oid := oidC, kind := 1 }
    (by decide) (by decide) (by decide) hdir

/-- C1 witness: peeling the outer fixture tag resolves through the inner
tag to the commit object. -/
theorem tag_peel_correct_witness :
    Tag.peel storeGood 2 tagA = .ok { oid := oidC, kind := 1 } ∧
    ({ oid := oidC, kind := 1 } : Object).kind ≠ objTag :=
  (tag_peel_correct storeGood tagA).1 2 { oid := oidC, kind := 1 } 2
    resolvesW (Nat.le_refl 2)

/-- C2: whenever `target()` succeeds, the identifier of the returned
object equals `target_id()`. -/
theorem target_id_agrees (s : Store) (g : git_tag) :
    ∀ o, Tag.target s g = .ok o → Object.id o = Tag.target_id g := by
  intro o h
  unfold Tag.target git_tag_target at h
  cases hlook : lookupStore s (git_tag_target_id g) with
  | none => simp [hlook] at h
  | some od =>
    simp [hlook] at h
    simp [← h, Object.id, Tag.target_id]

/-- C2 witness: on the fixture store the looked-up target of the inner
tag carries exactly `target_id()`. -/
theorem target_id_agrees_witness :
    Object.id { oid := oidC, kind := 1 } = Tag.target_id tagB :=
  target_id_agrees storeGood tagB { oid := oidC, kind := 1 } (by rfl)

/-- C3: `message()` is `None` exactly when `message_bytes()` is `None` or
its bytes are not valid UTF-8; otherwise it returns the decoded bytes. -/
theorem message_none_iff (g : git_tag) :
    (Tag.message g = none ↔
      Tag.message_bytes g = none ∨
        ∃ bs, Tag.message_bytes g = some bs ∧ utf8Valid bs = false) ∧
    (∀ bs, Tag.message_bytes g = some bs → utf8Valid bs = true →
      Tag.message g = some bs) := by
  cases hm : g.messagePtr with
  | none =>
    simp [Tag.message, Tag.message_bytes, opt_bytes, git_tag_message, hm]
  | some bs =>
    by_cases hv : utf8Valid bs = true
    · simp [Tag.message, Tag.message_bytes, opt_bytes, git_tag_message, hm,
        str_from_utf8, hv]
    · have hv' : utf8Valid bs = false := by
        simpa using hv
      simp [Tag.message, Tag.message_bytes, opt_bytes, git_tag_message, hm,
        str_from_utf8, hv']

/-- C3 witness: the fixture tag's `msg` bytes decode, and the bad-UTF-8
case is `None`. -/
theorem message_none_iff_witness :
    Tag.message tagA = some [109, 115, 103] :=
  (message_none_iff tagA).2 [109, 115, 103] (by rfl) (by decide)

/-- C4: under the precondition that a tag always has a name (non-null
native name pointer), `name_bytes()` always returns present bytes — the
internal unwrap cannot take its panic path — and `name()` is `None`
exactly when those bytes are not valid UTF-8. -/
theorem name_bytes_total (g : git_tag)
    (h : (git_tag_name g).isSome = true) :
    (∃ bs, Tag.name_bytes g = some bs) ∧
    (∀ bs, Tag.name_bytes g = some bs →
      (Tag.name g = none ↔ utf8Valid bs = false) ∧
      (utf8Valid bs = true → Tag.name g = some bs)) := by
  cases hm : g.namePtr with
  | none => simp [git_tag_name, hm] at h
  | some bs =>
    refine ⟨⟨bs, by simp [Tag.name_bytes, opt_bytes, git_tag_name, hm]⟩, ?_⟩
    intro bs' hbs'
    have hb : bs' = bs := by
      simp [Tag.name_bytes, opt_bytes, git_tag_name, hm] at hbs'
      exact hbs'.symm
    subst hb
    by_cases hv : utf8Valid bs' = true
    · simp [Tag.name, Tag.name_bytes, opt_bytes, git_tag_name, hm,
        str_from_utf8, hv]
    · have hv' : utf8Valid bs' = false := by simpa using hv
      simp [Tag.name, Tag.name_bytes, opt_bytes, git_tag_name, hm,
        str_from_utf8, hv']

/-- C4 witness: the fixture tag's name bytes are present and decode. -/
theorem name_bytes_total_witness :
    Tag.name_bytes tagA = some [97] ∧ Tag.name tagA = some [97] := by
  have h := name_bytes_total tagA (by decide)
  exact ⟨by rfl, (h.2 [97] (by rfl)).2 (by decide)⟩

/-- C5: `tagger()` is `None` iff the native tagger pointer is null; every
returned view wraps the non-null borrowed record, never a null pointer. -/
theorem tagger_none_iff (g : git_tag) :
    (Tag.tagger g = none ↔ git_tag_tagger g = none) ∧
    (∀ p, git_tag_tagger g = some p →
      Tag.tagger g = some (signature_from_raw_const p)) := by
  cases hm : g.taggerPtr <;>
    simp [Tag.tagger, git_tag_tagger, hm, signature_from_raw_const]

/-- C5 witness: the outer fixture tag has a tagger view over its recorded
signature; the inner one, created without a tagger, yields `None`. -/
theorem tagger_none_iff_witness :
    Tag.tagger tagA = some (signature_from_raw_const sigS) ∧
    Tag.tagger tagB = none :=
  ⟨(tagger_none_iff tagA).2 sigS (by rfl),
    (tagger_none_iff tagB).1.mpr (by rfl)⟩

/-- C6: `target()` performs a fresh lookup in the current store on every
call — its result is a function of the store's current lookup at
`target_id()`, with no cached state — returning `Ok` of an owning handle
when the target exists and a NotFound-class error when it is missing. -/
theorem target_fresh (s : Store) (g : git_tag) :
    (∀ od, lookupStore s (Tag.target_id g) = some od →
      Tag.target s g = .ok { oid := Tag.target_id g, kind := od.kind }) ∧
    (lookupStore s (Tag.target_id g) = none →
      ∃ e, Tag.target s g = .error e ∧ e.klass = ErrorClass.notFound) ∧
    (∀ s' : Store,
      lookupStore s' (Tag.target_id g) = lookupStore s (Tag.target_id g) →
      Tag.target s' g = Tag.target s g) := by
  refine ⟨?_, ?_, ?_⟩
  · intro od hlook
    unfold Tag.target git_tag_target
    rw [show git_tag_target_id g = Tag.target_id g from rfl, hlook]
  · intro hlook
    unfold Tag.target git_tag_target
    rw [show git_tag_target_id g = Tag.target_id g from rfl, hlook]
    exact ⟨{ code := -3, klass := .notFound }, rfl, rfl⟩
  · intro s' h
    unfold Tag.target git_tag_target
    rw [show git_tag_target_id g = Tag.target_id g from rfl, h]

/-- C6 witness: on the fixture store the inner tag's target is found; on
the empty store the same lookup fails with a NotFound-class error. -/
theorem target_fresh_witness :
    Tag.target storeGood tagB
      = .ok { oid := Tag.target_id tagB, kind := commitData.kind } ∧
    ∃ e, Tag.target storeMissing tagB = .error e ∧
      e.klass = ErrorClass.notFound :=
  ⟨(target_fresh storeGood tagB).1 commitData (by decide),
    (target_fresh storeMissing tagB).2.1 (by decide)⟩

/-- A Released handle admits no further operations, so a run starting
Released is the empty run. -/
lemma runLife_released (t : Tag) : ∀ ops st fs,
    runLife t .released ops = some (st, fs) →
    ops = [] ∧ st = .released ∧ fs = [] := by
  intro ops st fs h
  cases ops with
  | nil =>
    simp [runLife] at h
    obtain ⟨h1, h2⟩ := h
    subst h1
    subst h2
    exact ⟨rfl, rfl, rfl⟩
  | cons op ops => simp [runLife, lifeStep] at h

/-- Any permitted run from Live either has not yet dropped (still Live,
nothing released) or has dropped exactly once (Released, exactly the owned
pointer released). -/
lemma runLife_live_spec (t : Tag) : ∀ ops st fs,
    runLife t .live ops = some (st, fs) →
    (st = .released ∧ fs = [t.raw]) ∨ (st = .live ∧ fs = []) := by
  intro ops
  induction ops with
  | nil =>
    intro st fs h
    simp [runLife] at h
    obtain ⟨h1, h2⟩ := h
    subst h1
    subst h2
    exact Or.inr ⟨rfl, rfl⟩
  | cons op ops ih =>
    intro st fs h
    cases op with
    | access =>
      cases hr : runLife t .live ops with
      | none => simp [runLife, lifeStep, hr] at h
      | some r =>
        obtain ⟨st0, fs0⟩ := r
        simp [runLife, lifeStep, hr] at h
        obtain ⟨h1, h2⟩ := h
        subst h1
        subst h2
        exact ih _ _ hr
    | drop =>
      cases hr : runLife t .released ops with
      | none => simp [runLife, lifeStep, hr] at h
      | some r =>
        obtain ⟨st0, fs0⟩ := r
        obtain ⟨hops, hst, hfs⟩ := runLife_released t ops st0 fs0 hr
        subst hops
        subst hst
        subst hfs
        simp [runLife, lifeStep, drop_free] at h
        obtain ⟨h1, h2⟩ := h
        subst h1
        subst h2
        exact Or.inl ⟨rfl, rfl⟩

/-- C7: the Live/Released lifecycle releases the owned native resource
exactly once — a permitted operation sequence ends Released iff exactly
the owned pointer was released (never zero times, never more than once),
no operation is permitted after release, and a scope of any number of
accessor uses ending in the destructor releases exactly once. -/
theorem drop_exactly_once (t : Tag) (ops : List TagLifeOp) :
    (∀ st freed, runLife t .live ops = some (st, freed) →
      ((st = .released ↔ freed = [t.raw]) ∧ (st = .live ↔ freed = []))) ∧
    (∀ op, lifeStep t .released op = none) ∧
    (∀ n, runLife t .live (List.replicate n .access ++ [.drop])
      = some (.released, [t.raw])) := by
  refine ⟨?_, ?_, ?_⟩
  · intro st freed h
    rcases runLife_live_spec t ops st freed h with ⟨h1, h2⟩ | ⟨h1, h2⟩ <;>
      subst h1 <;> subst h2 <;> simp
  · intro op
    cases op <;> rfl
  · intro n
    induction n with
    | zero => rfl
    | succ n ih =>
      simp only [List.replicate_succ, List.cons_append]
      simp [runLife, lifeStep, ih]

/-- C7 witness: using then destroying a concrete handle releases exactly
its owned pointer, and nothing is permitted on the released handle. -/
theorem drop_exactly_once_witness :
    (LifeState.released = LifeState.released ↔
      [tagHandleW.raw] = [tagHandleW.raw]) ∧
    runLife tagHandleW LifeState.live [TagLifeOp.access, TagLifeOp.drop]
      = some (LifeState.released, [tagHandleW.raw]) ∧
    lifeStep tagHandleW LifeState.released TagLifeOp.drop = none := by
  have hrun := (drop_exactly_once tagHandleW
    [TagLifeOp.access, TagLifeOp.drop]).2.2 1
  refine ⟨?_, by simpa using hrun,
    (drop_exactly_once tagHandleW [TagLifeOp.access, TagLifeOp.drop]).2.1
      TagLifeOp.drop⟩
  exact ((drop_exactly_once tagHandleW
    [TagLifeOp.access, TagLifeOp.drop]).1 LifeState.released [tagHandleW.raw]
    (by simpa using hrun)).1

/-- C8: in the native-call traces of `peel()` and `target()`, the error
translation runs immediately after the fallible native call it follows,
before any other native call on the thread, and therefore reads the
thread-local last-error slot as written by exactly that call. -/
theorem error_translation_immediate :
    (immediatelyTranslated peelEvents ∧ translatorReadsOwnError peelEvents) ∧
    (immediatelyTranslated targetEvents ∧
      translatorReadsOwnError targetEvents) := by
  refine ⟨⟨?_, ?_⟩, ⟨?_, ?_⟩⟩
  · intro i f h
    match i with
    | 0 =>
      simp [peelEvents, try_call] at h
      subst h
      rfl
    | 1 => simp [peelEvents, try_call] at h
    | (i + 2) => simp [peelEvents, try_call] at h
  · intro init i f h
    match i with
    | 0 => simp [peelEvents, try_call] at h
    | 1 =>
      simp [peelEvents, try_call] at h
      subst h
      rfl
    | (i + 2) => simp [peelEvents, try_call] at h
  · intro i f h
    match i with
    | 0 =>
      simp [targetEvents, try_call] at h
      subst h
      rfl
    | 1 => simp [targetEvents, try_call] at h
    | (i + 2) => simp [targetEvents, try_call] at h
  · intro init i f h
    match i with
    | 0 => simp [targetEvents, try_call] at h
    | 1 =>
      simp [targetEvents, try_call] at h
      subst h
      rfl
    | (i + 2) => simp [targetEvents, try_call] at h

/-- C8 witness: in the concrete `peel` trace the translation directly
follows the call, and in the concrete `target` trace the slot read by the
translator was written by `git_tag_target` itself. -/
theorem error_translation_immediate_witness :
    peelEvents.get? 1 = some (NativeEvent.errCheck NativeFn.tagPeel) ∧
    slotAfter (targetEvents.take 1) none = some NativeFn.tagTarget :=
  ⟨error_translation_immediate.1.1 0 NativeFn.tagPeel (by rfl),
    error_translation_immediate.2.2 none 1 NativeFn.tagTarget (by rfl)⟩

/-- Running accessors never changes the native state, and every returned
value is the accessor's reading of the initial state. -/
lemma runAccessors_eq (st : Store × git_tag) (ops : List AccessorOp) :
    runAccessors st ops
      = (st, ops.map (fun op => (runAccessor st op).2)) := by
  induction ops with
  | nil => rfl
  | cons op ops ih =>
    have h1 : (runAccessor st op).1 = st := rfl
    simp [runAccessors, h1, ih]

/-- C9: every accessor on a live tag handle is a pure read — any sequence
of accessor calls, in any order, leaves the native state unchanged and
each call returns the value determined by the initial state; in
particular repeated `id()` calls all return the same identifier. -/
theorem accessors_pure (st : Store × git_tag) (ops : List AccessorOp) :
    runAccessors st ops
      = (st, ops.map (fun op => (runAccessor st op).2)) ∧
    (runAccessors st ops).1 = st ∧
    (∀ n, (runAccessors st (List.replicate n AccessorOp.aId)).2
      = List.replicate n (AccVal.vOid (Tag.id st.2))) := by
  refine ⟨runAccessors_eq st ops, by rw [runAccessors_eq], ?_⟩
  intro n
  rw [runAccessors_eq]
  simp only [List.map_replicate]
  rfl

/-- C10: the raw-handle binding on `Tag` is a round-trip — wrapping any
non-null raw pointer and reading it back yields the same pointer, and the
wrapper's state is nothing but the stored pointer. -/
theorem binding_round_trip (p : Ptr) (_hp : p ≠ 0) :
    (Tag.from_raw p).raw = p ∧ Tag.from_raw p = { raw := p } ∧
    ∀ t : Tag, Tag.from_raw t.raw = t :=
  ⟨rfl, rfl, fun _ => rfl⟩

/-- C10 witness: the round-trip at the concrete non-null pointer `1`. -/
theorem binding_round_trip_witness : (Tag.from_raw 1).raw = 1 :=
  (binding_round_trip 1 (by decide)).1

end GitTag
